import Mathlib

/-!
Verification of the Weltrade SyntX scanner (`src/syntx_scanner.py`).

The numeric model is exact rational arithmetic (`ℚ`) in place of IEEE floats;
prices in the domain are positive reals, so the float/rational divergences
(NaN/inf from zero closes) are outside the modelled domain and noted where
relevant.  Pandas conventions embedded here:
* `Series.pct_change()` produces `NaN` at index 0 and `(x[i] - x[i-1]) / x[i-1]`
  afterwards; the `NaN` head is dropped (pandas skips it in `.std()`), so
  `pctChanges` returns the `n - 1` defined entries.
* `Series.std()` is the sample standard deviation (`ddof = 1`) over the
  non-NaN entries.
* `rolling(w).mean()` at the last index is the mean of the trailing `w`
  entries; at the second-to-last index it is the same over the series
  without its last element.
* Python's `round(x, 5)` rounds half-to-even at the fifth decimal.
-/

/-- CONFIG from `src/syntx_scanner.py`: fast MA window `MA_FAST = 5`. -/
def MA_FAST : Nat := 5

/-- CONFIG: slow MA window `MA_SLOW = 15`. -/
def MA_SLOW : Nat := 15

/-- CONFIG: `SPIKE_MULTIPLIER = 2.0`. -/
def SPIKE_MULTIPLIER : ℚ := 2

/-- CONFIG: `MIN_SPIKE_PCT = 0.0005`. -/
def MIN_SPIKE_PCT : ℚ := 5 / 10000

/-- CONFIG: `RISK_PCT = 0.005` (0.5% SL/TP). -/
def RISK_PCT : ℚ := 5 / 1000

/-- One OHLC bar, a row of the DataFrame returned by `get_bars`.
`time` is the bar timestamp (epoch seconds, an integer). -/
structure Bar where
  time : ℤ
  openP : ℚ
  high : ℚ
  low : ℚ
  close : ℚ
  volume : ℚ
deriving DecidableEq, Repr

/-- A signal dict as built by `compute_signal`: `type` is one of the strings
"SPIKE_UP", "SPIKE_DOWN", "BUY", "SELL"; `pct` is present only on spikes. -/
structure Signal where
  type : String
  price : ℚ
  pct : Option ℚ
  time : ℤ
deriving DecidableEq, Repr

/-- Mean of a list of rationals (`sum / len`; `len = 0` never occurs at use
sites, where `ℚ` division by zero yields 0). -/
def listMean (l : List ℚ) : ℚ := l.sum / l.length

/-- `df['close'].rolling(w).mean()` evaluated at the LAST index of `l`:
the mean of the trailing `w` entries.  Only used where `w ≤ l.length`,
matching the guarded accesses in `compute_signal`. -/
def rollingMeanLast (w : Nat) (l : List ℚ) : ℚ :=
  (l.reverse.take w).sum / w

/-- `Series.pct_change()` with the leading `NaN` dropped:
entry `i` is `(x[i+1] - x[i]) / x[i]`. -/
def pctChanges : List ℚ → List ℚ
  | [] => []
  | [_] => []
  | a :: b :: t => (b - a) / a :: pctChanges (b :: t)

/-- Sample variance (`ddof = 1`), the square of `Series.std()`.  The scanner
compares `|pct|` with `max(MIN_SPIKE_PCT, 2 * std)`; since both sides are
nonnegative this is equivalent to comparing squares, which keeps the model
inside `ℚ` (see `spike_threshold_iff_sqrt`). -/
def sampleVar (l : List ℚ) : ℚ :=
  if l.length ≤ 1 then 0
  else (l.map (fun x => (x - listMean l) ^ 2)).sum / (l.length - 1)

/-- Closing price of the last bar (`df['close'].iloc[-1]`). -/
def lastClose (df : List Bar) : ℚ := (df.map Bar.close).getLastD 0

/-- Timestamp of the last bar (`df.iloc[-1]['time']`). -/
def lastTime (df : List Bar) : ℤ := (df.map Bar.time).getLastD 0

/-- `last['pct']` with the scanner's NaN guard (`0.0` when undefined);
for a series of length ≥ 2 it is the last defined percent change. -/
def lastPct (df : List Bar) : ℚ := (pctChanges (df.map Bar.close)).getLastD 0

/-- The spike test of line 73, `abs(last_pct) >= spike_threshold` with
`spike_threshold = max(MIN_SPIKE_PCT, SPIKE_MULTIPLIER * vol)` and
`vol = df['pct'].std()`: phrased over `ℚ` by squaring the (nonnegative)
standard-deviation arm; `v` is the sample variance `vol ** 2`.
`spike_threshold_iff_sqrt` proves this equal to the square-root form. -/
def spikeCond (p v : ℚ) : Prop :=
  MIN_SPIKE_PCT ≤ |p| ∧ SPIKE_MULTIPLIER ^ 2 * v ≤ p ^ 2

instance (p v : ℚ) : Decidable (spikeCond p v) := by
  unfold spikeCond; infer_instance

/-- `last['ma_fast']`: the fast rolling mean at the last bar. -/
def maFastLast (df : List Bar) : ℚ := rollingMeanLast MA_FAST (df.map Bar.close)

/-- `last['ma_slow']`: the slow rolling mean at the last bar. -/
def maSlowLast (df : List Bar) : ℚ := rollingMeanLast MA_SLOW (df.map Bar.close)

/-- `prev['ma_fast']`: the fast rolling mean at the second-to-last bar. -/
def maFastPrev (df : List Bar) : ℚ :=
  rollingMeanLast MA_FAST (df.map Bar.close).dropLast

/-- `prev['ma_slow']`: the slow rolling mean at the second-to-last bar. -/
def maSlowPrev (df : List Bar) : ℚ :=
  rollingMeanLast MA_SLOW (df.map Bar.close).dropLast

/-- `vol ** 2` where `vol = df['pct'].std()` (line 66), so that the
threshold comparison stays rational; see `spikeCond`. -/
def volVar (df : List Bar) : ℚ := sampleVar (pctChanges (df.map Bar.close))

/-- `buy` of line 69: fast MA crosses above slow MA between the previous
and the last bar. -/
def buyCond (df : List Bar) : Prop :=
  maSlowLast df < maFastLast df ∧ maFastPrev df ≤ maSlowPrev df

instance (df : List Bar) : Decidable (buyCond df) := by
  unfold buyCond; infer_instance

/-- `sell` of line 70: fast MA crosses below slow MA. -/
def sellCond (df : List Bar) : Prop :=
  maFastLast df < maSlowLast df ∧ maSlowPrev df ≤ maFastPrev df

instance (df : List Bar) : Decidable (sellCond df) := by
  unfold sellCond; infer_instance

/-- `compute_signal` (src/syntx_scanner.py lines 57-82), embedded over the
list of bars of the DataFrame.  The function is total: the insufficient-
history guard returns `none` and every later access is within bounds. -/
def compute_signal (df : List Bar) : Option Signal :=
  if df.length < MA_SLOW + 5 then none
  else if spikeCond (lastPct df) (volVar df) then
    some { type := if 0 < lastPct df then "SPIKE_UP" else "SPIKE_DOWN",
           price := lastClose df, pct := some (lastPct df), time := lastTime df }
  else if buyCond df then
    some { type := "BUY", price := lastClose df, pct := none, time := lastTime df }
  else if sellCond df then
    some { type := "SELL", price := lastClose df, pct := none, time := lastTime df }
  else none

/-- Python `round(x, 5)` rounds the fifth decimal half-to-even (banker's
rounding); modelled exactly over `ℚ` (the float tie-at-binary-midpoint
nuance cannot arise for the rationals the claims exercise). -/
def roundHalfEven (x : ℚ) : ℤ :=
  if x - ⌊x⌋ < 1 / 2 then ⌊x⌋
  else if 1 / 2 < x - ⌊x⌋ then ⌊x⌋ + 1
  else if Even ⌊x⌋ then ⌊x⌋ else ⌊x⌋ + 1

/-- `round(v, 5)`: round to five decimal places. -/
def round5 (x : ℚ) : ℚ := (roundHalfEven (x * 100000) : ℚ) / 100000

/-- `calculate_sl_tp` (lines 85-95): advisory stop-loss / take-profit pair
from a signal's `type` string and the series (entry = last close). -/
def calculate_sl_tp (sigType : String) (df : List Bar) : ℚ × ℚ :=
  if sigType = "BUY" ∨ sigType = "SPIKE_UP" then
    (round5 (lastClose df * (1 - RISK_PCT)), round5 (lastClose df * (1 + RISK_PCT * 2)))
  else if sigType = "SELL" ∨ sigType = "SPIKE_DOWN" then
    (round5 (lastClose df * (1 + RISK_PCT)), round5 (lastClose df * (1 - RISK_PCT * 2)))
  else
    (round5 (lastClose df), round5 (lastClose df))

/-- State of one scanner process: the `seen` map (symbol → stringified
timestamp of the last notified signal, `None` initially) and the trace of
notifier invocations, recorded as the (symbol, signal) pairs whose
formatted text is passed to `send_telegram` (lines 142-144); message
formatting itself is presentation-only. -/
structure ScanState where
  seen : String → Option String
  sent : List (String × Signal)

/-- The per-symbol body of the scanner loop (lines 135-144), given the
bars fetched for symbol `s`: skip on empty fetch, skip on no signal,
suppress when `seen[s]` equals the stringified timestamp, otherwise
update `seen[s]` and notify once. -/
def scan_step (df : List Bar) (st : ScanState) (s : String) : ScanState :=
  if df.isEmpty then st
  else
    match compute_signal df with
    | none => st
    | some sig =>
      if st.seen s = some (toString sig.time) then st
      else { seen := fun x => if x = s then some (toString sig.time) else st.seen x,
             sent := st.sent ++ [(s, sig)] }

/-- One symbol of a pass: fetch (`get_bars`) then the loop body. -/
def scan_symbol (fetch : String → List Bar) (st : ScanState) (s : String) :
    ScanState :=
  scan_step (fetch s) st s

/-- One full pass of the `while True` loop over the symbol set (line 134). -/
def scan_pass (fetch : String → List Bar) (st : ScanState)
    (symbols : List String) : ScanState :=
  symbols.foldl (scan_symbol fetch) st

/-- A pass in which fetching a symbol may raise.  The `for` body in `main`
(lines 134-144) has no exception handler — only `KeyboardInterrupt` is
caught, and outside the loop — so an exception propagates immediately,
modelled by the `Except` short-circuit; detection itself is total in the
model, so exceptions enter through the fetch. -/
def scan_pass_exc (fetch : String → Except String (List Bar))
    (st : ScanState) : List String → Except String ScanState
  | [] => .ok st
  | s :: rest =>
    match fetch s with
    | .error e => .error e
    | .ok df => scan_pass_exc fetch (scan_step df st s) rest

/-- Outcome of `requests.post`: an HTTP status code, or a raised
network/transport exception. -/
inductive HttpResult where
  | status (code : Nat)
  | netError (msg : String)

/-- `send_telegram` (lines 110-119).  `token`/`chat` are the two optional
credentials (`None` when the environment variable is unset; Python
truthiness also treats the empty string as absent).  `post` abstracts
`requests.post`; a raised transport exception is the `netError` case,
caught by the `except` clause.  Returns the boolean result together with
the list of HTTP requests actually issued (empty ⇒ no-op).  The function
is total: it never propagates a transport failure. -/
def send_telegram (token chat : Option String) (post : String → HttpResult)
    (text : String) : Bool × List String :=
  match token, chat with
  | some tk, some ch =>
    if tk = "" ∨ ch = "" then (false, [])
    else
      match post text with
      | .status c => (decide (c = 200), [text])
      | .netError _ => (false, [text])
  | _, _ => (false, [])

/-- Exit status of the process running `main` (lines 122-153), as a
function of the startup environment:
* `init_ok = false`: `init_mt5` raises `SystemExit(message)` with a string
  argument, which CPython reports as exit status 1;
* `init_ok = true`, empty symbol list: `main` prints a warning, calls
  `mt5.shutdown()` and returns normally (line 128) — exit status 0;
* otherwise the loop runs until `KeyboardInterrupt`, which is caught
  (line 147), so `main` returns normally — exit status 0. -/
def main_exit_code (init_ok : Bool) (symbols : List String) : Nat :=
  if init_ok = false then 1
  else if symbols.isEmpty then 0
  else 0

/-- A pandas DataFrame as the scanner sees it: the bar rows plus the
three derived columns, absent (`none`) until assigned. -/
structure DataFrame where
  rows : List Bar
  ma_fast : Option (List (Option ℚ))
  ma_slow : Option (List (Option ℚ))
  pct : Option (List (Option ℚ))

/-- The full `rolling(w).mean()` column: `none` (NaN) while the trailing
window is incomplete, otherwise the mean of the trailing `w` entries. -/
def rollingMeanCol (w : Nat) (l : List ℚ) : List (Option ℚ) :=
  (List.range l.length).map fun i =>
    if i + 1 < w then none else some (rollingMeanLast w (l.take (i + 1)))

/-- The full `pct_change()` column: NaN at index 0, then the percent
changes. -/
def pctCol (l : List ℚ) : List (Option ℚ) :=
  if l.isEmpty then [] else none :: (pctChanges l).map some

/-- `compute_signal` with the caller's DataFrame tracked through the call.
Line 58 returns before anything is written; line 60 (`df = df.copy()`)
rebinds the local name to a fresh object, so the column assignments of
lines 61-63 mutate only the copy.  Returns (result, the caller's object
as it stands after the call, the local object at its final state). -/
def compute_signal_df (caller : DataFrame) :
    Option Signal × DataFrame × DataFrame :=
  if caller.rows.length < MA_SLOW + 5 then (none, caller, caller)
  else
    let closes := caller.rows.map Bar.close
    let copy3 : DataFrame :=
      { rows := caller.rows,
        ma_fast := some (rollingMeanCol MA_FAST closes),
        ma_slow := some (rollingMeanCol MA_SLOW closes),
        pct := some (pctCol closes) }
    (compute_signal caller.rows, caller, copy3)

/-! ### Concrete test series -/

/-- Build a bar series from closing prices, bar `i` stamped at time `i`. -/
def mkBars (closes : List ℚ) : List Bar :=
  (closes.zip (List.range closes.length)).map fun p =>
    { time := p.2, openP := p.1, high := p.1, low := p.1, close := p.1,
      volume := 1 }

/-- Twenty bars: nineteen closes at 100, then a jump to 200 — a spike on
the last bar. -/
def spikeBars : List Bar := mkBars (List.replicate 19 100 ++ [200])

/-- The same closes shifted one minute later: same prices, new last-bar
timestamp. -/
def spikeBarsLater : List Bar :=
  (mkBars (List.replicate 19 100 ++ [200])).map fun b => { b with time := b.time + 1 }

/-- Twenty bars: a noisy start (high variance, so no spike), then a fast
MA crossing above the slow MA exactly at the last bar. -/
def buyBars : List Bar :=
  mkBars [110, 90, 110, 90, 110, 90, 110, 90, 110, 90,
          100, 100, 100, 100, 100, 100, 100, 100, 100, 104]

/-- Mirror image of `buyBars`: the fast MA crosses below at the last bar. -/
def sellBars : List Bar :=
  mkBars [90, 110, 90, 110, 90, 110, 90, 110, 90, 110,
          100, 100, 100, 100, 100, 100, 100, 100, 100, 96]

/-! ### Helper lemmas -/

/-- The sample variance is nonnegative. -/
theorem sampleVar_nonneg (l : List ℚ) : 0 ≤ sampleVar l := by
  unfold sampleVar
  split
  · exact le_refl 0
  · rename_i h
    have hlen : 2 ≤ l.length := by omega
    have hden : (0 : ℚ) ≤ (l.length : ℚ) - 1 := by
      have : (2 : ℚ) ≤ (l.length : ℚ) := by exact_mod_cast hlen
      linarith
    exact div_nonneg
      (List.sum_nonneg fun x hx => by
        obtain ⟨y, _, rfl⟩ := List.mem_map.mp hx
        positivity)
      hden

/-- The rational spike test `spikeCond` is exactly the scanner's
floating-point test `abs(last_pct) >= max(MIN_SPIKE_PCT,
SPIKE_MULTIPLIER * vol)` with `vol = sqrt v` the standard deviation. -/
theorem spikeCond_iff_sqrt (p v : ℚ) (hv : 0 ≤ v) :
    spikeCond p v ↔
      max ((MIN_SPIKE_PCT : ℚ) : ℝ)
        (((SPIKE_MULTIPLIER : ℚ) : ℝ) * Real.sqrt ((v : ℚ) : ℝ)) ≤
        |((p : ℚ) : ℝ)| := by
  have hv' : (0 : ℝ) ≤ (v : ℝ) := by exact_mod_cast hv
  have hSM : (0 : ℝ) ≤ ((SPIKE_MULTIPLIER : ℚ) : ℝ) := by
    norm_num [SPIKE_MULTIPLIER]
  rw [max_le_iff]
  unfold spikeCond
  constructor
  · rintro ⟨h1, h2⟩
    refine ⟨by exact_mod_cast h1, ?_⟩
    have h2' : ((SPIKE_MULTIPLIER : ℚ) : ℝ) ^ 2 * (v : ℝ) ≤ ((p : ℚ) : ℝ) ^ 2 := by
      exact_mod_cast h2
    have hs := Real.sqrt_le_sqrt h2'
    rw [Real.sqrt_mul (by positivity) _, Real.sqrt_sq hSM,
      Real.sqrt_sq_eq_abs] at hs
    exact hs
  · rintro ⟨h1, h2⟩
    refine ⟨by exact_mod_cast h1, ?_⟩
    have hmul : ((SPIKE_MULTIPLIER : ℚ) : ℝ) * Real.sqrt (v : ℝ) *
        (((SPIKE_MULTIPLIER : ℚ) : ℝ) * Real.sqrt (v : ℝ)) ≤
        |((p : ℚ) : ℝ)| * |((p : ℚ) : ℝ)| :=
      mul_self_le_mul_self (mul_nonneg hSM (Real.sqrt_nonneg _)) h2
    have hsq := Real.sq_sqrt hv'
    have : ((SPIKE_MULTIPLIER : ℚ) : ℝ) ^ 2 * (v : ℝ) ≤ ((p : ℚ) : ℝ) ^ 2 := by
      nlinarith [sq_abs ((p : ℚ) : ℝ)]
    exact_mod_cast this

/-- C1: for every bar series with fewer than `MA_SLOW + 5 = 20` bars the
detector returns `None` (and, being a total function, never raises). -/
theorem claim1_insufficient_history (df : List Bar)
    (h : df.length < MA_SLOW + 5) : compute_signal df = none := by
  unfold compute_signal
  rw [if_pos h]

/-- Witness for C1 at the two-bar series `[100, 101]`. -/
theorem claim1_witness :
    (mkBars [100, 101]).length < MA_SLOW + 5 ∧
      compute_signal (mkBars [100, 101]) = none :=
  ⟨by decide, claim1_insufficient_history _ (by decide)⟩

/-- C2: with enough history, whenever `|pct[last]|` reaches the threshold
`max(MIN_SPIKE_PCT, SPIKE_MULTIPLIER * stddev(pct))` the detector returns
the spike signal — `SPIKE_UP` when positive, else `SPIKE_DOWN` — carrying
the last close, the last percent change and the last timestamp; the
result is that single spike signal even when an MA-crossover condition
holds simultaneously, so BUY/SELL is never produced on a spike. -/
theorem claim2_spike_precedence (df : List Bar) (h : MA_SLOW + 5 ≤ df.length)
    (hsp : max ((MIN_SPIKE_PCT : ℚ) : ℝ)
        (((SPIKE_MULTIPLIER : ℚ) : ℝ) * Real.sqrt ((volVar df : ℚ) : ℝ)) ≤
        |((lastPct df : ℚ) : ℝ)|) :
    compute_signal df =
      some { type := if 0 < lastPct df then "SPIKE_UP" else "SPIKE_DOWN",
             price := lastClose df, pct := some (lastPct df),
             time := lastTime df } := by
  have hc : spikeCond (lastPct df) (volVar df) :=
    (spikeCond_iff_sqrt _ _ (sampleVar_nonneg _)).mpr hsp
  unfold compute_signal
  rw [if_neg (by omega), if_pos hc]

/-- Witness for C2: `spikeBars` (a +100% last bar, both crossover MAs
irrelevant) yields exactly the SPIKE_UP signal. -/
theorem claim2_witness :
    MA_SLOW + 5 ≤ spikeBars.length ∧
      compute_signal spikeBars =
        some { type := if 0 < lastPct spikeBars then "SPIKE_UP" else "SPIKE_DOWN",
               price := lastClose spikeBars, pct := some (lastPct spikeBars),
               time := lastTime spikeBars } :=
  ⟨by decide, claim2_spike_precedence spikeBars (by decide)
    ((spikeCond_iff_sqrt _ _ (sampleVar_nonneg _)).mp (by
      norm_num [spikeCond, lastPct, volVar, spikeBars, mkBars, pctChanges,
        sampleVar, listMean, MIN_SPIKE_PCT, SPIKE_MULTIPLIER, List.replicate,
        List.range, List.range.loop, List.getLastD]))⟩

/-- C3: with enough history and no spike, a fast-over-slow crossover
yields BUY at the last close, a fast-under-slow crossover yields SELL,
and with neither crossover the detector returns `None`. -/
theorem claim3_crossover (df : List Bar) (h : MA_SLOW + 5 ≤ df.length)
    (hns : ¬ spikeCond (lastPct df) (volVar df)) :
    (buyCond df →
        compute_signal df =
          some { type := "BUY", price := lastClose df, pct := none,
                 time := lastTime df }) ∧
    (sellCond df →
        compute_signal df =
          some { type := "SELL", price := lastClose df, pct := none,
                 time := lastTime df }) ∧
    (¬ buyCond df → ¬ sellCond df → compute_signal df = none) := by
  unfold compute_signal
  rw [if_neg (by omega), if_neg hns]
  refine ⟨fun hb => by rw [if_pos hb], fun hs => ?_,
    fun hnb hns2 => by rw [if_neg hnb, if_neg hns2]⟩
  have hnb : ¬ buyCond df := fun hb => lt_asymm hb.1 hs.1
  rw [if_neg hnb, if_pos hs]

/-- Witness for C3: `buyBars` has a fast-over-slow crossover on the last
bar, no spike, and the detector returns BUY. -/
theorem claim3_witness :
    MA_SLOW + 5 ≤ buyBars.length ∧
      ¬ spikeCond (lastPct buyBars) (volVar buyBars) ∧
      compute_signal buyBars =
        some { type := "BUY", price := lastClose buyBars, pct := none,
               time := lastTime buyBars } :=
  ⟨by decide,
    by
      norm_num [spikeCond, lastPct, volVar, buyBars, mkBars, pctChanges,
        sampleVar, listMean, MIN_SPIKE_PCT, SPIKE_MULTIPLIER, List.range,
        List.range.loop, List.getLastD],
    (claim3_crossover buyBars (by decide)
        (by
          norm_num [spikeCond, lastPct, volVar, buyBars, mkBars, pctChanges,
            sampleVar, listMean, MIN_SPIKE_PCT, SPIKE_MULTIPLIER, List.range,
            List.range.loop, List.getLastD])).1
      (by
        norm_num [buyCond, maFastLast, maSlowLast, maFastPrev, maSlowPrev,
          rollingMeanLast, MA_FAST, MA_SLOW, buyBars, mkBars, List.range,
          List.range.loop, List.reverse, List.reverseAux, List.dropLast])⟩

/-- Percent changes of a constant series are all zero (also for close 0,
where `(c - c) / c = 0 / 0 = 0` in `ℚ`, matching the scanner's eventual
treatment of the degenerate all-NaN case). -/
theorem pctChanges_const (c : ℚ) :
    ∀ l : List ℚ, (∀ x ∈ l, x = c) → ∀ y ∈ pctChanges l, y = 0
  | [], _, y, hy => by simp [pctChanges] at hy
  | [a], _, y, hy => by simp [pctChanges] at hy
  | a :: b :: t, h, y, hy => by
    rw [pctChanges] at hy
    rcases List.mem_cons.mp hy with h1 | h2
    · have ha : a = c := h a (List.mem_cons_self a _)
      have hb : b = c := h b (List.mem_cons_of_mem _ (List.mem_cons_self b _))
      rw [h1, ha, hb, sub_self, zero_div]
    · exact pctChanges_const c (b :: t)
        (fun x hx => h x (List.mem_cons_of_mem a hx)) y h2

/-- `getLastD` of a list whose elements all equal the default. -/
theorem getLastD_const (c : ℚ) :
    ∀ l : List ℚ, (∀ x ∈ l, x = c) → l.getLastD c = c
  | [], _ => rfl
  | a :: t, h => by
    rw [List.getLastD_cons]
    have ha : a = c := h a (List.mem_cons_self a t)
    rw [ha]
    exact getLastD_const c t fun x hx => h x (List.mem_cons_of_mem _ hx)

/-- The trailing rolling mean of a constant series is that constant. -/
theorem rollingMeanLast_const (w : Nat) (l : List ℚ) (c : ℚ)
    (hall : ∀ x ∈ l, x = c) (hw : 0 < w) (hlen : w ≤ l.length) :
    rollingMeanLast w l = c := by
  unfold rollingMeanLast
  have hrev : ∀ x ∈ l.reverse.take w, x = c := fun x hx =>
    hall x (List.mem_reverse.mp (List.take_subset _ _ hx))
  have hlen2 : (l.reverse.take w).length = w := by
    rw [List.length_take, List.length_reverse]
    omega
  rw [List.sum_eq_card_nsmul _ c hrev, hlen2, nsmul_eq_mul,
    mul_div_cancel_left₀ c (by exact_mod_cast hw.ne' : (w : ℚ) ≠ 0)]

/-- C6: a flat series (constant close), of any length, never produces a
signal: the detector returns `None`. -/
theorem claim6_flat_series (df : List Bar) (c : ℚ)
    (hflat : ∀ b ∈ df, b.close = c) : compute_signal df = none := by
  unfold compute_signal
  by_cases hlen : df.length < MA_SLOW + 5
  · rw [if_pos hlen]
  · rw [if_neg hlen]
    have hall : ∀ x ∈ df.map Bar.close, x = c := fun x hx => by
      obtain ⟨b, hb, rfl⟩ := List.mem_map.mp hx
      exact hflat b hb
    have hlast : lastPct df = 0 := by
      unfold lastPct
      exact getLastD_const 0 _ (pctChanges_const c _ hall)
    have hspike : ¬ spikeCond (lastPct df) (volVar df) := by
      rw [hlast]
      rintro ⟨h1, -⟩
      rw [abs_zero] at h1
      norm_num [MIN_SPIKE_PCT] at h1
    have hmap : (df.map Bar.close).length = df.length := List.length_map _ _
    have hfast : maFastLast df = c :=
      rollingMeanLast_const _ _ c hall (by norm_num [MA_FAST])
        (by rw [hmap]; simp only [MA_FAST, MA_SLOW] at hlen ⊢; omega)
    have hslow : maSlowLast df = c :=
      rollingMeanLast_const _ _ c hall (by norm_num [MA_SLOW])
        (by rw [hmap]; simp only [MA_FAST, MA_SLOW] at hlen ⊢; omega)
    have hnb : ¬ buyCond df := by
      rintro ⟨h1, -⟩
      rw [hfast, hslow] at h1
      exact lt_irrefl c h1
    have hnsell : ¬ sellCond df := by
      rintro ⟨h1, -⟩
      rw [hfast, hslow] at h1
      exact lt_irrefl c h1
    rw [if_neg hspike, if_neg hnb, if_neg hnsell]

/-- Witness for C6: twenty flat bars at close 100 produce no signal. -/
theorem claim6_witness :
    (∀ b ∈ mkBars (List.replicate 20 100), b.close = 100) ∧
      compute_signal (mkBars (List.replicate 20 100)) = none :=
  ⟨by decide, claim6_flat_series _ 100 (by decide)⟩

/-- C5: the risk annotator follows the rule table — for BUY/SPIKE_UP,
stopLoss = entry·(1 − RISK_PCT) and takeProfit = entry·(1 + 2·RISK_PCT);
for SELL/SPIKE_DOWN the mirrored pair; (entry, entry) for any other type —
each value rounded to 5 decimal places; and concretely, at entry = 100 a
BUY yields stopLoss 99.5 and takeProfit 101.0 (within 1e-5). -/
theorem claim5_risk_annotator (t : String) (df : List Bar) :
    ((t = "BUY" ∨ t = "SPIKE_UP") →
        calculate_sl_tp t df =
          (round5 (lastClose df * (1 - RISK_PCT)),
           round5 (lastClose df * (1 + RISK_PCT * 2)))) ∧
    ((t = "SELL" ∨ t = "SPIKE_DOWN") →
        calculate_sl_tp t df =
          (round5 (lastClose df * (1 + RISK_PCT)),
           round5 (lastClose df * (1 - RISK_PCT * 2)))) ∧
    (¬(t = "BUY" ∨ t = "SPIKE_UP") → ¬(t = "SELL" ∨ t = "SPIKE_DOWN") →
        calculate_sl_tp t df = (round5 (lastClose df), round5 (lastClose df))) ∧
    (lastClose df = 100 →
        |(calculate_sl_tp "BUY" df).1 - 199 / 2| ≤ 1 / 100000 ∧
        |(calculate_sl_tp "BUY" df).2 - 101| ≤ 1 / 100000) := by
  refine ⟨fun h1 => ?_, fun h2 => ?_, fun hn1 hn2 => ?_, fun h100 => ?_⟩
  · unfold calculate_sl_tp
    rw [if_pos h1]
  · have hn : ¬ (t = "BUY" ∨ t = "SPIKE_UP") := by
      rcases h2 with rfl | rfl <;> decide
    unfold calculate_sl_tp
    rw [if_neg hn, if_pos h2]
  · unfold calculate_sl_tp
    rw [if_neg hn1, if_neg hn2]
  · unfold calculate_sl_tp
    rw [if_pos (Or.inl rfl), h100]
    norm_num [round5, roundHalfEven, RISK_PCT]

/-- Witness for C5 on a flat 100-close series: the BUY row of the table
and the concrete 99.5 / 101.0 values. -/
theorem claim5_witness :
    calculate_sl_tp "BUY" (mkBars (List.replicate 20 100)) =
      (round5 (lastClose (mkBars (List.replicate 20 100)) * (1 - RISK_PCT)),
       round5 (lastClose (mkBars (List.replicate 20 100)) * (1 + RISK_PCT * 2))) ∧
    |(calculate_sl_tp "BUY" (mkBars (List.replicate 20 100))).1 - 199 / 2| ≤ 1 / 100000 ∧
    |(calculate_sl_tp "BUY" (mkBars (List.replicate 20 100))).2 - 101| ≤ 1 / 100000 :=
  ⟨(claim5_risk_annotator "BUY" _).1 (Or.inl rfl),
   (claim5_risk_annotator "BUY" _).2.2.2 (by
     norm_num [lastClose, mkBars, List.replicate, List.range, List.range.loop,
       List.getLastD])⟩

/-- A series that produces a signal is nonempty (it has ≥ 20 bars). -/
theorem compute_signal_nonempty {df : List Bar} {sig : Signal}
    (h : compute_signal df = some sig) : df.isEmpty = false := by
  cases df with
  | nil =>
    exact absurd h (by
      norm_num [compute_signal, MA_SLOW]
      exact fun hc => Option.noConfusion hc)
  | cons a t => rfl

/-- Concrete evaluation: `spikeBars` yields the SPIKE_UP signal at time 19. -/
theorem compute_signal_spikeBars :
    compute_signal spikeBars =
      some { type := "SPIKE_UP", price := 200, pct := some 1, time := 19 } := by
  norm_num [compute_signal, spikeCond, lastPct, volVar, lastClose, lastTime,
    spikeBars, mkBars, pctChanges, sampleVar, listMean, MIN_SPIKE_PCT,
    SPIKE_MULTIPLIER, MA_SLOW, List.replicate, List.range, List.range.loop,
    List.getLastD]

/-- Concrete evaluation: the shifted series yields the same signal at
time 20. -/
theorem compute_signal_spikeBarsLater :
    compute_signal spikeBarsLater =
      some { type := "SPIKE_UP", price := 200, pct := some 1, time := 20 } := by
  norm_num [compute_signal, spikeCond, lastPct, volVar, lastClose, lastTime,
    spikeBarsLater, spikeBars, mkBars, pctChanges, sampleVar, listMean,
    MIN_SPIKE_PCT, SPIKE_MULTIPLIER, MA_SLOW, List.replicate, List.range,
    List.range.loop, List.getLastD]

/-- C4: per-symbol deduplication.  When the detected signal's stringified
timestamp equals `seen[symbol]`, the pass leaves the whole state intact
(no notification, `seen` unchanged); when it differs (including the
first-ever detection, `seen[symbol] = None`), it records the new
timestamp and notifies exactly once.  Hence a second pass over unchanged
data is a no-op — one notification total — while a pass whose signal
carries a changed timestamp notifies a second time. -/
theorem claim4_dedup (fetch fetch2 : String → List Bar) (st : ScanState)
    (s : String) (sig sig2 : Signal)
    (h1 : compute_signal (fetch s) = some sig)
    (h2 : compute_signal (fetch2 s) = some sig2) :
    (st.seen s = some (toString sig.time) → scan_symbol fetch st s = st) ∧
    (st.seen s ≠ some (toString sig.time) →
      (scan_symbol fetch st s).seen s = some (toString sig.time) ∧
      (scan_symbol fetch st s).sent = st.sent ++ [(s, sig)]) ∧
    scan_symbol fetch (scan_symbol fetch st s) s = scan_symbol fetch st s ∧
    (toString sig2.time ≠ toString sig.time →
      (scan_symbol fetch2 (scan_symbol fetch st s) s).sent =
        (scan_symbol fetch st s).sent ++ [(s, sig2)]) := by
  have hne : (fetch s).isEmpty = false := compute_signal_nonempty h1
  have hne2 : (fetch2 s).isEmpty = false := compute_signal_nonempty h2
  have hstep : ∀ st' : ScanState, scan_symbol fetch st' s =
      if st'.seen s = some (toString sig.time) then st'
      else { seen := fun x => if x = s then some (toString sig.time)
                              else st'.seen x,
             sent := st'.sent ++ [(s, sig)] } := by
    intro st'
    unfold scan_symbol scan_step
    rw [hne, h1]
    simp
  have hstep2 : ∀ st' : ScanState, scan_symbol fetch2 st' s =
      if st'.seen s = some (toString sig2.time) then st'
      else { seen := fun x => if x = s then some (toString sig2.time)
                              else st'.seen x,
             sent := st'.sent ++ [(s, sig2)] } := by
    intro st'
    unfold scan_symbol scan_step
    rw [hne2, h2]
    simp
  have hseen : (scan_symbol fetch st s).seen s = some (toString sig.time) := by
    by_cases h : st.seen s = some (toString sig.time)
    · rw [hstep, if_pos h]
      exact h
    · rw [hstep, if_neg h]
      simp
  refine ⟨fun h => by rw [hstep, if_pos h], fun h => ?_, ?_, fun hdiff => ?_⟩
  · rw [hstep, if_neg h]
    exact ⟨by simp, rfl⟩
  · rw [hstep (scan_symbol fetch st s), if_pos hseen]
  · have hne3 : (scan_symbol fetch st s).seen s ≠ some (toString sig2.time) := by
      rw [hseen]
      intro hc
      exact hdiff (Option.some_injective _ hc).symm
    rw [hstep2 (scan_symbol fetch st s), if_neg hne3]

/-- Witness for C4: starting from a fresh state (`seen["A"] = None`),
the first detection notifies once; repeating the pass on unchanged data
changes nothing; a pass with a new last-bar timestamp notifies again. -/
theorem claim4_witness :
    (scan_symbol (fun _ => spikeBars) ⟨fun _ => none, []⟩ "A").sent =
      [("A", { type := "SPIKE_UP", price := 200, pct := some 1, time := 19 })] ∧
    scan_symbol (fun _ => spikeBars)
        (scan_symbol (fun _ => spikeBars) ⟨fun _ => none, []⟩ "A") "A" =
      scan_symbol (fun _ => spikeBars) ⟨fun _ => none, []⟩ "A" ∧
    (scan_symbol (fun _ => spikeBarsLater)
        (scan_symbol (fun _ => spikeBars) ⟨fun _ => none, []⟩ "A") "A").sent =
      (scan_symbol (fun _ => spikeBars) ⟨fun _ => none, []⟩ "A").sent ++
        [("A", { type := "SPIKE_UP", price := 200, pct := some 1, time := 20 })] :=
  ⟨(((claim4_dedup (fun _ => spikeBars) (fun _ => spikeBarsLater) ⟨fun _ => none, []⟩
      "A" _ _ compute_signal_spikeBars compute_signal_spikeBarsLater).2.1
        (by simp)).2).trans (List.nil_append _),
   (claim4_dedup (fun _ => spikeBars) (fun _ => spikeBarsLater) ⟨fun _ => none, []⟩
      "A" _ _ compute_signal_spikeBars compute_signal_spikeBarsLater).2.2.1,
   (claim4_dedup (fun _ => spikeBars) (fun _ => spikeBarsLater) ⟨fun _ => none, []⟩
      "A" _ _ compute_signal_spikeBars compute_signal_spikeBarsLater).2.2.2
     (by decide)⟩

/-- `spikeBars` is a nonempty series. -/
theorem spikeBars_isEmpty : spikeBars.isEmpty = false := by decide

/-- C7 counterexample: the loop body of `main` has no per-symbol handler,
so with symbols `["A", "B"]` an exception raised while fetching "A"
aborts the whole pass — even though "B" alone would have produced a
notification (second conjunct). -/
theorem claim7_counterexample :
    scan_pass_exc
        (fun s => if s = "A" then .error "boom" else .ok spikeBars)
        ⟨fun _ => none, []⟩ ["A", "B"] = .error "boom" ∧
    (scan_pass_exc (fun _ => .ok spikeBars) ⟨fun _ => none, []⟩
        ["B"]).map ScanState.sent =
      .ok [("B", { type := "SPIKE_UP", price := 200, pct := some 1,
                   time := 19 })] := by
  constructor
  · simp [scan_pass_exc]
  · simp [scan_pass_exc, scan_step, spikeBars_isEmpty, compute_signal_spikeBars,
      Except.map]

/-- C7 amended: an unexpected exception while fetching a symbol
propagates out of the pass at once — the pass is aborted with that
exception and no later symbol is processed (isolation is absent; only
`KeyboardInterrupt` is caught, outside the loop). -/
theorem claim7_exception_aborts_pass (fetch : String → Except String (List Bar))
    (st : ScanState) (s : String) (rest : List String) (e : String)
    (hf : fetch s = .error e) :
    scan_pass_exc fetch st (s :: rest) = .error e := by
  unfold scan_pass_exc
  rw [hf]

/-- Witness for the amended C7 at the concrete failing fetch. -/
theorem claim7_witness :
    scan_pass_exc
        (fun s => if s = "A" then .error "boom" else .ok spikeBars)
        ⟨fun _ => none, []⟩ ["A", "B"] = .error "boom" :=
  claim7_exception_aborts_pass _ _ "A" ["B"] "boom" (by simp)

/-- C8: the notifier is total (never raises).  Its boolean is true exactly
when both credentials are present (and nonempty, Python truthiness) and
the post returned status 200; a transport exception or a non-200 status
yields false; and with either credential absent it is a no-op — nothing
is sent and the result is false. -/
theorem claim8_notifier (token chat : Option String)
    (post : String → HttpResult) (text : String) :
    ((send_telegram token chat post text).1 = true ↔
      ∃ tk ch, token = some tk ∧ chat = some ch ∧ tk ≠ "" ∧ ch ≠ "" ∧
        post text = .status 200) ∧
    (token = none ∨ chat = none →
      send_telegram token chat post text = (false, [])) ∧
    (∀ e, post text = .netError e →
      (send_telegram token chat post text).1 = false) ∧
    (∀ c, post text = .status c → c ≠ 200 →
      (send_telegram token chat post text).1 = false) := by
  cases token with
  | none => simp [send_telegram]
  | some tk =>
    cases chat with
    | none => simp [send_telegram]
    | some ch =>
      by_cases htk : tk = ""
      · subst htk
        simp [send_telegram]
      · by_cases hch : ch = ""
        · subst hch
          simp [send_telegram, htk]
        · have hcred : ¬ (tk = "" ∨ ch = "") := not_or.mpr ⟨htk, hch⟩
          cases hpost : post text with
          | status c =>
            have hval : send_telegram (some tk) (some ch) post text =
                (decide (c = 200), [text]) := by
              simp [send_telegram, hcred, hpost]
            rw [hval]
            refine ⟨?_, ?_, ?_, ?_⟩
            · constructor
              · intro h200
                refine ⟨tk, ch, rfl, rfl, htk, hch, ?_⟩
                rw [of_decide_eq_true h200]
              · rintro ⟨tk2, ch2, -, -, -, -, hps⟩
                injection hps with hc
                exact decide_eq_true hc
            · rintro (h | h) <;> exact Option.noConfusion h
            · intro e2 he2
              exact absurd he2 (fun hx => HttpResult.noConfusion hx)
            · intro c2 hc2 hne
              injection hc2 with hc
              subst hc
              exact decide_eq_false hne
          | netError e =>
            have hval : send_telegram (some tk) (some ch) post text =
                (false, [text]) := by
              simp [send_telegram, hcred, hpost]
            rw [hval]
            refine ⟨?_, ?_, fun e2 he2 => rfl, fun c2 hc2 hne => rfl⟩
            · constructor
              · intro h
                exact absurd h (by simp)
              · rintro ⟨tk2, ch2, -, -, -, -, hps⟩
                exact absurd hps (fun hx => HttpResult.noConfusion hx)
            · rintro (h | h) <;> exact Option.noConfusion h

/-- Witness for C8: with the token credential absent the notifier is a
no-op returning false. -/
theorem claim8_witness :
    send_telegram none (some "chat") (fun _ => .status 200) "hello" =
      (false, []) :=
  (claim8_notifier none (some "chat") (fun _ => .status 200) "hello").2.1
    (Or.inl rfl)

/-- C9 counterexample: with a working provider session and an EMPTY
resolved symbol set, `main` prints a warning and returns normally
(line 128), so the process exits with status 0 — not non-zero as the
claim requires for this startup failure. -/
theorem claim9_counterexample : main_exit_code true [] = 0 := rfl

/-- C9 amended: the process exits 0 on every clean shutdown (including
user interrupt, which is caught) and with the non-zero status 1 when the
provider session cannot be established; an empty resolved symbol set also
exits 0 after a warning, not non-zero. -/
theorem claim9_exit_codes (symbols : List String) :
    main_exit_code false symbols = 1 ∧ main_exit_code true symbols = 0 := by
  constructor <;> simp [main_exit_code]

/-- C10: `compute_signal` never mutates the caller's DataFrame: the
caller's object is returned exactly as passed (the indicator columns are
written to the `df.copy()` of line 60 only, second and third conjuncts),
and the signal computed from the copy agrees with `compute_signal` on
the caller's rows. -/
theorem claim10_no_mutation (df : DataFrame) :
    (compute_signal_df df).2.1 = df ∧
    (compute_signal_df df).1 = compute_signal df.rows ∧
    (¬ df.rows.length < MA_SLOW + 5 →
      (compute_signal_df df).2.2.ma_fast =
        some (rollingMeanCol MA_FAST (df.rows.map Bar.close)) ∧
      (compute_signal_df df).2.2.ma_slow =
        some (rollingMeanCol MA_SLOW (df.rows.map Bar.close)) ∧
      (compute_signal_df df).2.2.pct =
        some (pctCol (df.rows.map Bar.close))) := by
  unfold compute_signal_df
  by_cases h : df.rows.length < MA_SLOW + 5
  · rw [if_pos h]
    refine ⟨rfl, ?_, fun hc => absurd h hc⟩
    show (none : Option Signal) = compute_signal df.rows
    unfold compute_signal
    rw [if_pos h]
  · rw [if_neg h]
    exact ⟨rfl, rfl, fun _ => ⟨rfl, rfl, rfl⟩⟩

/-- Witness for C10 on a concrete 20-bar DataFrame with no derived
columns: the caller's object comes back unchanged while the copy has
received the `pct` column. -/
theorem claim10_witness :
    (compute_signal_df ⟨spikeBars, none, none, none⟩).2.1 =
      ⟨spikeBars, none, none, none⟩ ∧
    (compute_signal_df ⟨spikeBars, none, none, none⟩).2.2.pct =
      some (pctCol (spikeBars.map Bar.close)) :=
  ⟨(claim10_no_mutation _).1,
   ((claim10_no_mutation ⟨spikeBars, none, none, none⟩).2.2 (by decide)).2.2⟩
